import Mathlib

/-!
Shallow embedding of `src/context.ts` (the `GardenContext` class) from the
`lgs/garden` repository: plugin registry, action-handler dispatch, environment
selection, and module/service discovery.  Mutable class state is modelled by
explicit state passing on the `Garden.GardenContext` structure; thrown
exceptions are modelled with `Except`.  JavaScript objects used as ordered
string-keyed maps are modelled as association lists in insertion order
(JS preserves insertion order for non-index string keys), with lookup finding
the first matching key.
-/

deriving instance DecidableEq for Except

namespace Garden

/-- The recognized capability (plugin action) names.  `context.ts` initializes
`this.actionHandlers` with exactly these three keys. -/
inductive ActionType where
  | parseModule
  | getModuleBuildStatus
  | buildModule
deriving DecidableEq

/-- The string form of an action name, as it appears in error messages. -/
def ActionType.label : ActionType → String
  | .parseModule => "parseModule"
  | .getModuleBuildStatus => "getModuleBuildStatus"
  | .buildModule => "buildModule"

/-- The fixed iteration order of capability names (`pluginActionNames` from
`types/plugin`), matching the keys with which `context.ts` initializes
`this.actionHandlers`. -/
def pluginActionNames : List ActionType :=
  [.parseModule, .getModuleBuildStatus, .buildModule]

/-- A registered plugin (`PluginInterface`): identifier, supported module
types, and an optional handler per capability.  Handlers are abstract values
of type `H` (the code stores functions; their identity is all resolution
uses). -/
structure PluginInterface (H : Type) where
  name : String
  supportedModuleTypes : List String
  parseModule : Option H
  getModuleBuildStatus : Option H
  buildModule : Option H
deriving DecidableEq

/-- `plugin[action]` field access. -/
def PluginInterface.action (p : PluginInterface H) : ActionType → Option H
  | .parseModule => p.parseModule
  | .getModuleBuildStatus => p.getModuleBuildStatus
  | .buildModule => p.buildModule

/-- `this.actionHandlers`: per capability, a string-keyed map (association
list in insertion order) from plugin identifier to bound handler. -/
structure PluginActionMap (H : Type) where
  parseModule : List (String × H)
  getModuleBuildStatus : List (String × H)
  buildModule : List (String × H)
deriving DecidableEq

/-- `this.actionHandlers[a]`. -/
def PluginActionMap.get (m : PluginActionMap H) : ActionType → List (String × H)
  | .parseModule => m.parseModule
  | .getModuleBuildStatus => m.getModuleBuildStatus
  | .buildModule => m.buildModule

/-- Lookup in a JS object modelled as an association list: the first binding
for the key, if any. -/
def lookupStr (m : List (String × A)) (k : String) : Option A :=
  (m.find? (fun kv => kv.1 == k)).map (fun kv => kv.2)

/-- Modelled from the spec: a provider slot value in an environment's
configuration carries a provider `type` (the plugin identifier configured to
fill the slot); `types/project-config` is not under `src/`. -/
structure ProviderConfig where
  type : String
deriving DecidableEq

/-- Modelled from the spec: an environment configuration block holds a
mapping of provider slot to provider configuration; `types/project-config` is
not under `src/`. -/
structure EnvironmentConfig where
  providers : List (String × ProviderConfig)
deriving DecidableEq

/-- Modelled from the spec: project configuration as used by `context.ts`,
a mapping from environment name to environment block
(`types/project-config` is not under `src/`). -/
structure ProjectConfig where
  environments : List (String × EnvironmentConfig)
deriving DecidableEq

/-- The `{name, namespace}` pair returned by `setEnvironment`. -/
structure EnvPair where
  name : String
  namespace_ : String
deriving DecidableEq

/-- Modelled from the spec: the `Environment` value returned by
`getEnvironment` (`types/common` is not under `src/`): name, namespace and
the environment's configuration block.  The last two are `Option` because in
JavaScript the corresponding reads can yield `undefined`. -/
structure Environment where
  name : String
  namespace_ : Option String
  config : Option EnvironmentConfig
deriving DecidableEq

/-- Modelled from the spec: a typed `Module` produced by a `parseModule`
handler (`types/module` is not under `src/`): declared name, declared type,
and filesystem path. -/
structure Module where
  name : String
  type : String
  path : String
deriving DecidableEq

/-- A service entry as stored by `getModules`: the owning module and the raw
configuration fragment (modelled abstractly as a string). -/
structure Service where
  module : Module
  config : String
deriving DecidableEq

/-- Modelled from the spec: a raw module declaration as produced by
`loadModuleConfig` (`types/module` is not under `src/`): declared name,
declared type and the optional service-name-to-raw-fragment mapping. -/
structure ModuleConfig where
  name : String
  type : String
  services : Option (List (String × String))
deriving DecidableEq

/-- An entry yielded by the external directory scanner. -/
structure ScanItem where
  path : String
deriving DecidableEq

/-- JavaScript `s.split(sep)` for a single-character separator, on character
lists: always yields at least one (possibly empty) segment, and adjacent or
trailing separators yield empty segments. -/
def splitOnChar (sep : Char) (s : List Char) : List (List Char) :=
  s.foldr
    (fun c acc =>
      match acc with
      | [] => [[c]]
      | cur :: rest => if c = sep then [] :: cur :: rest else (c :: cur) :: rest)
    [[]]

/-- JavaScript `parts.join(sep)` for a single-character separator, on
character lists. -/
def joinChar (sep : Char) : List (List Char) → List Char
  | [] => []
  | [x] => x
  | x :: xs => x ++ sep :: joinChar sep xs

/-- JavaScript `s.split(sep)` on strings. -/
def jsSplit (sep : Char) (s : String) : List String :=
  (splitOnChar sep s.data).map (fun cs => ⟨cs⟩)

/-- JavaScript `parts.join(sep)` on strings. -/
def jsJoin (sep : Char) (l : List String) : String :=
  ⟨joinChar sep (l.map String.data)⟩

/-- The `{dir, base}` part of Node's `path.parse`. -/
structure PathInfo where
  dir : String
  base : String
deriving DecidableEq

/-- Model of Node `path.parse` restricted to the `dir`/`base` fields, for
forward-slash paths without trailing separators (what the scanner yields). -/
def pathParse (p : String) : PathInfo :=
  let parts := jsSplit '/' p
  { dir := jsJoin '/' parts.dropLast, base := parts.getLastD "" }

/-- Model of Node `path.relative` for the common case where the target lies
under the root directory. -/
def relativePath (root p : String) : String :=
  if (root.data ++ ['/']).isPrefixOf p.data then ⟨p.data.drop (root.data.length + 1)⟩
  else p

/-- Modelled from the spec: the fixed default namespace constant
(`DEFAULT_NAMESPACE` from `constants`, not under `src/`). -/
def DEFAULT_NAMESPACE : String := "default"

/-- Modelled from the spec: the fixed module-declaration filename
(`MODULE_CONFIG_FILENAME` from `constants`, not under `src/`). -/
def MODULE_CONFIG_FILENAME : String := "garden.yml"

/-- Detail payloads of the `ParameterError`s thrown in `context.ts`. -/
inductive ParameterDetail where
  | envNotFound (name : String) (namespace_ : String)
  | noHandler (requestedHandlerType : ActionType) (requestedModuleType : Option String)
  | noEnvHandler (requestedHandlerType : ActionType) (requestedModuleType : Option String)
      (environment : String)
deriving DecidableEq

/-- Detail payloads of the `ConfigurationError`s thrown in `getModules`. -/
inductive ConfigDetail where
  | duplicateModule (pathA : String) (pathB : String)
  | duplicateService (serviceName : String) (moduleA : String) (moduleB : String)
deriving DecidableEq

/-- Detail payloads of the `PluginError`s thrown in `context.ts`.  The
invalid-identifier case is modelled from the spec (the failure of
`Joi.attempt(plugin.name, JoiIdentifier())`; `JoiIdentifier` and the
exception classes are not under `src/`, and the spec assigns invalid plugin
identifiers to `PluginError`). -/
inductive PluginErrorDetail (H : Type) where
  | empty
  | invalidIdentifier (name : String)
  | duplicatePlugin (previous : PluginInterface H) (adding : PluginInterface H)
deriving DecidableEq

/-- The structured errors thrown by the code under `src/`.  `typeError`
stands for a raw JavaScript `TypeError` (reading or calling `undefined`),
reachable only outside the intended state space. -/
inductive GardenError (H : Type) where
  | configurationError (message : String) (detail : ConfigDetail)
  | parameterError (message : String) (detail : ParameterDetail)
  | pluginError (message : String) (detail : PluginErrorDetail H)
  | typeError
deriving DecidableEq

/-- The mutable state of a `GardenContext` instance.  `environment` and
`namespace_` are `none` before `setEnvironment` first succeeds; `modules` and
`services` are `none` before the first successful discovery pass. -/
structure GardenContext (H : Type) where
  config : ProjectConfig
  environment : Option String
  namespace_ : Option String
  plugins : List (PluginInterface H)
  actionHandlers : PluginActionMap H
  modules : Option (List (String × Module))
  services : Option (List (String × Service))
deriving DecidableEq

/-- A freshly constructed context, before any plugin registration: empty
plugin registry, empty handler maps, no environment, no discovery cache.
(The constructor then registers the built-in plugins through
`registerPlugin`, which `mkContext` below composes.) -/
def emptyContext (config : ProjectConfig) : GardenContext H :=
  { config := config
    environment := none
    namespace_ := none
    plugins := []
    actionHandlers := ⟨[], [], []⟩
    modules := none
    services := none }

/-- JS truthiness test used on `this.environment` (`!this.environment`):
falsy when unset (`undefined`) or the empty string. -/
def jsFalsyStr : Option String → Bool
  | none => true
  | some s => s == ""

/-- `setEnvironment(environment)`: split the selector on `.`, take the head
as the name and the remainder joined by `.` (or, when that join is falsy,
the default namespace) as the namespace; fail when the name is not a key of
the project's environments; otherwise store and return the pair. -/
def setEnvironment (ctx : GardenContext H) (environment : String) :
    Except (GardenError H) (GardenContext H × EnvPair) :=
  let parts := jsSplit '.' environment
  let name := parts.headD ""
  let joined := jsJoin '.' (parts.drop 1)
  let namespace_ := if joined == "" then DEFAULT_NAMESPACE else joined
  match lookupStr ctx.config.environments name with
  | none =>
      .error (.parameterError ("Could not find environment " ++ environment)
        (.envNotFound name namespace_))
  | some _ =>
      .ok ({ ctx with environment := some name, namespace_ := some namespace_ },
        ⟨name, namespace_⟩)

/-- `getEnvironment()`: fail when `this.environment` is falsy, otherwise
return the stored name and namespace together with the environment block
looked up from project configuration by name. -/
def getEnvironment (ctx : GardenContext H) : Except (GardenError H) Environment :=
  if jsFalsyStr ctx.environment then
    .error (.pluginError "Environment has not been set" .empty)
  else
    .ok { name := ctx.environment.getD ""
          namespace_ := ctx.namespace_
          config := lookupStr ctx.config.environments (ctx.environment.getD "") }

/-- `this.plugins[nm]`: lookup of a registered plugin by identifier. -/
def findPlugin (ps : List (PluginInterface H)) (nm : String) :
    Option (PluginInterface H) :=
  ps.find? (fun p => p.name == nm)

/-- One step of the registration loop: record the bound handler for one
capability under the plugin's identifier. -/
def addHandlerEntry (m : PluginActionMap H) (a : ActionType) (nm : String) (h : H) :
    PluginActionMap H :=
  match a with
  | .parseModule => { m with parseModule := m.parseModule ++ [(nm, h)] }
  | .getModuleBuildStatus =>
      { m with getModuleBuildStatus := m.getModuleBuildStatus ++ [(nm, h)] }
  | .buildModule => { m with buildModule := m.buildModule ++ [(nm, h)] }

/-- The `for (const action of pluginActionNames)` loop in `registerPlugin`:
for each capability the plugin implements, store its bound handler under the
plugin's identifier. -/
def registerHandlers (m : PluginActionMap H) (p : PluginInterface H) :
    PluginActionMap H :=
  pluginActionNames.foldl
    (fun acc a =>
      match p.action a with
      | some h => addHandlerEntry acc a p.name h
      | none => acc)
    m

/-- `registerPlugin(pluginFactory)`, applied to the plugin the factory
produced.  Validates the identifier (the identifier grammar is supplied as
the predicate `validIdent`; modelled from the spec, since `JoiIdentifier` is
not under `src/`), rejects duplicate identifiers, then records the plugin
and its bound handlers. -/
def registerPlugin (validIdent : String → Bool) (ctx : GardenContext H)
    (plugin : PluginInterface H) : Except (GardenError H) (GardenContext H) :=
  if validIdent plugin.name = false then
    .error (.pluginError ("Invalid plugin name " ++ plugin.name)
      (.invalidIdentifier plugin.name))
  else
    match findPlugin ctx.plugins plugin.name with
    | some previous =>
        .error (.pluginError ("Plugin " ++ plugin.name ++ " declared more than once")
          (.duplicatePlugin previous plugin))
    | none =>
        .ok { ctx with
          plugins := ctx.plugins ++ [plugin]
          actionHandlers := registerHandlers ctx.actionHandlers plugin }

/-- Sequential registration of a list of plugins (the constructor's built-in
loop followed by any external `registerPlugin` calls). -/
def registerAll (validIdent : String → Bool) :
    GardenContext H → List (PluginInterface H) →
    Except (GardenError H) (GardenContext H)
  | ctx, [] => .ok ctx
  | ctx, p :: ps =>
      match registerPlugin validIdent ctx p with
      | .error e => .error e
      | .ok ctx' => registerAll validIdent ctx' ps

/-- A context as produced by the constructor plus external registrations:
built-in plugins registered first, in their fixed order, then the externally
supplied plugins. -/
def mkContext (validIdent : String → Bool) (config : ProjectConfig)
    (builtins externals : List (PluginInterface H)) :
    Except (GardenError H) (GardenContext H) :=
  registerAll validIdent (emptyContext config) (builtins ++ externals)

/-- `getAllPlugins(moduleType?)`: all registered plugins in registration
order, optionally restricted to those supporting the given module type. -/
def getAllPlugins (ctx : GardenContext H) (moduleType : Option String) :
    List (PluginInterface H) :=
  match moduleType with
  | some mt => ctx.plugins.filter (fun p => p.supportedModuleTypes.contains mt)
  | none => ctx.plugins

/-- The message of the `ParameterError` thrown by `getActionHandler`. -/
def noHandlerMessage (a : ActionType) (moduleType : Option String) : String :=
  "No handler for " ++ a.label ++ " configured" ++
    (match moduleType with
     | some mt => " for module type " ++ mt
     | none => "")

/-- `getActionHandler(type, moduleType?)`: scan `getAllPlugins(moduleType)`
in order and return `this.actionHandlers[type][plugin.name]` for the first
plugin whose `plugin[type]` is set; otherwise throw a `ParameterError`
carrying the requested capability and module type. -/
def getActionHandler (ctx : GardenContext H) (a : ActionType)
    (moduleType : Option String) : Except (GardenError H) (Option H) :=
  match (getAllPlugins ctx moduleType).find? (fun p => (p.action a).isSome) with
  | some plugin => .ok (lookupStr (ctx.actionHandlers.get a) plugin.name)
  | none =>
      .error (.parameterError (noHandlerMessage a moduleType)
        (.noHandler a moduleType))

/-- `getEnvPlugins(moduleType?)`: the plugins of `getAllPlugins(moduleType)`
whose identifier is one of the provider types configured for the active
environment. -/
def getEnvPlugins (ctx : GardenContext H) (moduleType : Option String) :
    Except (GardenError H) (List (PluginInterface H)) :=
  match getEnvironment ctx with
  | .error e => .error e
  | .ok env =>
      match env.config with
      | none => .error .typeError
      | some cfg =>
          let envProviderTypes := cfg.providers.map (fun kv => kv.2.type)
          .ok ((getAllPlugins ctx moduleType).filter
            (fun p => envProviderTypes.contains p.name))

/-- The message of the `ParameterError` thrown by `getEnvActionHandler`. -/
def noEnvHandlerMessage (a : ActionType) (moduleType : Option String)
    (envName : String) : String :=
  "No handler for " ++ a.label ++ " configured for environment " ++ envName ++
    (match moduleType with
     | some mt => " and module type " ++ mt
     | none => "")

/-- `getEnvActionHandler(type, moduleType?)`: the first-match scan of
`getActionHandler`, over `getEnvPlugins(moduleType)`; the failure carries
the capability, module type and environment name. -/
def getEnvActionHandler (ctx : GardenContext H) (a : ActionType)
    (moduleType : Option String) : Except (GardenError H) (Option H) :=
  match getEnvPlugins ctx moduleType with
  | .error e => .error e
  | .ok plugins =>
      match plugins.find? (fun p => (p.action a).isSome) with
      | some plugin => .ok (lookupStr (ctx.actionHandlers.get a) plugin.name)
      | none =>
          match getEnvironment ctx with
          | .error e => .error e
          | .ok env =>
              .error (.parameterError (noEnvHandlerMessage a moduleType env.name)
                (.noEnvHandler a moduleType env.name))

/-- The inner service loop of `getModules`: index each declared service,
failing when a service name is already present in the service index. -/
def addServices (ownerName : String) (module : Module) :
    List (String × String) → List (String × Service) →
    Except (GardenError H) (List (String × Service))
  | [], svcs => .ok svcs
  | (serviceName, serviceConfig) :: rest, svcs =>
      match lookupStr svcs serviceName with
      | some previous =>
          .error (.configurationError
            ("Service names must be unique - " ++ serviceName ++
              " is declared multiple times (in \x27" ++ previous.module.name ++
              "\x27 and \x27" ++ ownerName ++ "\x27)")
            (.duplicateService serviceName previous.module.name ownerName))
      | none =>
          addServices ownerName module rest
            (svcs ++ [(serviceName, ⟨module, serviceConfig⟩)])

/-- One iteration of the discovery loop of `getModules`, for one scanned
entry: when the entry is a module-declaration file, load its configuration,
reject an already-indexed module name, parse the module through the global
`parseModule` handler for its declared type, index it, and index its
services.  `applyParse` applies a handler value to a module configuration
(the call `parseHandler(this, config)`); `loadConfig` is the external
`loadModuleConfig`. -/
def scanStep (applyParse : H → ModuleConfig → Module)
    (loadConfig : String → ModuleConfig) (root : String) (ctx : GardenContext H)
    (st : List (String × Module) × List (String × Service)) (item : ScanItem) :
    Except (GardenError H) (List (String × Module) × List (String × Service)) :=
  let parsedPath := pathParse item.path
  if parsedPath.base == MODULE_CONFIG_FILENAME then
    let config := loadConfig parsedPath.dir
    match lookupStr st.1 config.name with
    | some previous =>
        let pathA := previous.path
        let pathB := relativePath root item.path
        .error (.configurationError
          ("Module " ++ config.name ++ " is declared multiple times (\x27" ++
            pathA ++ "\x27 and \x27" ++ pathB ++ "\x27)")
          (.duplicateModule pathA pathB))
    | none =>
        match getActionHandler ctx .parseModule (some config.type) with
        | .error e => .error e
        | .ok none => .error .typeError
        | .ok (some h) =>
            let module := applyParse h config
            match addServices config.name module (config.services.getD []) st.2 with
            | .error e => .error e
            | .ok svcs' => .ok (st.1 ++ [(config.name, module)], svcs')
  else
    .ok st

/-- The full discovery pass: fold `scanStep` over the entries yielded by the
external scanner, starting from empty indexes. -/
def scanAll (applyParse : H → ModuleConfig → Module)
    (loadConfig : String → ModuleConfig) (root : String) (ctx : GardenContext H)
    (items : List ScanItem) :
    Except (GardenError H) (List (String × Module) × List (String × Service)) :=
  items.foldlM (scanStep applyParse loadConfig root ctx) ([], [])

/-- lodash `pick(m, names)`: the sub-map of `m` at the given keys, silently
omitting keys that are not present. -/
def pickMap (m : List (String × A)) (names : List String) : List (String × A) :=
  names.filterMap (fun n => (lookupStr m n).map (fun v => (n, v)))

/-- `names === undefined ? m : pick(m, names)`. -/
def pickOpt (m : List (String × A)) : Option (List String) → List (String × A)
  | none => m
  | some names => pickMap m names

/-- `getModules(names?)`: when the module index is already cached, return it
(or the requested subset) without scanning; otherwise run the discovery pass
and commit both indexes together before returning. -/
def getModules (applyParse : H → ModuleConfig → Module)
    (loadConfig : String → ModuleConfig) (root : String) (items : List ScanItem)
    (ctx : GardenContext H) (names : Option (List String)) :
    Except (GardenError H) (List (String × Module) × GardenContext H) :=
  match ctx.modules with
  | some mods => .ok (pickOpt mods names, ctx)
  | none =>
      match scanAll applyParse loadConfig root ctx items with
      | .error e => .error e
      | .ok (mods, svcs) =>
          .ok (pickOpt mods names,
            { ctx with modules := some mods, services := some svcs })

/-- `getServices(names?)`: ensure the discovery pass has run, then return
the service index (or the requested subset).  The result is `Option` because
in JavaScript `this.services` could in principle still be `undefined`. -/
def getServices (applyParse : H → ModuleConfig → Module)
    (loadConfig : String → ModuleConfig) (root : String) (items : List ScanItem)
    (ctx : GardenContext H) (names : Option (List String)) :
    Except (GardenError H) (Option (List (String × Service)) × GardenContext H) :=
  match getModules applyParse loadConfig root items ctx none with
  | .error e => .error e
  | .ok (_, ctx') =>
      match ctx'.services with
      | none => .ok (none, ctx')
      | some svcs => .ok (some (pickOpt svcs names), ctx')

/-- The state-mutating operations of the public contract, for stating
invariants over every reachable context. -/
inductive Op (H : Type) where
  | register (validIdent : String → Bool) (p : PluginInterface H)
  | setEnv (selector : String)
  | scanModules (applyParse : H → ModuleConfig → Module)
      (loadConfig : String → ModuleConfig) (root : String)
      (items : List ScanItem) (names : Option (List String))

/-- Run one operation; a thrown error leaves the state unchanged (every
mutation in `context.ts` happens after the operation's checks have
passed). -/
def runOp (ctx : GardenContext H) : Op H → GardenContext H
  | .register v p =>
      match registerPlugin v ctx p with
      | .ok ctx' => ctx'
      | .error _ => ctx
  | .setEnv s =>
      match setEnvironment ctx s with
      | .ok (ctx', _) => ctx'
      | .error _ => ctx
  | .scanModules ap lc root items names =>
      match getModules ap lc root items ctx names with
      | .ok (_, ctx') => ctx'
      | .error _ => ctx

/-- Run a sequence of operations from a given context. -/
def runOps (ctx : GardenContext H) (ops : List (Op H)) : GardenContext H :=
  ops.foldl runOp ctx

/-- Run a sequence of `setEnvironment` calls, keeping the state unchanged on
failure. -/
def applyEnvCalls (ctx : GardenContext H) (calls : List String) : GardenContext H :=
  calls.foldl
    (fun c s =>
      match setEnvironment c s with
      | .ok (c', _) => c'
      | .error _ => c)
    ctx

/-- Whether one `setEnvironment` call would succeed; this depends only on
the project configuration, which no operation mutates. -/
def envCallSucceeds (config : ProjectConfig) (s : String) : Bool :=
  (lookupStr config.environments ((jsSplit '.' s).headD "")).isSome

/-- The registry invariant: every registered plugin's entry in each
capability map equals its own handler for that capability, and every entry
in a capability map belongs to some registered plugin. -/
def handlersConsistent (ctx : GardenContext H) : Prop :=
  (∀ p, p ∈ ctx.plugins → ∀ a, lookupStr (ctx.actionHandlers.get a) p.name = p.action a) ∧
  (∀ a nm h, (nm, h) ∈ ctx.actionHandlers.get a →
    ∃ p, p ∈ ctx.plugins ∧ p.name = nm)

/-- The discovery-cache invariant: the module and service indexes are
populated together, and every indexed service's owning module is present in
the module index. -/
def indexesConsistent (ctx : GardenContext H) : Prop :=
  (ctx.modules.isSome = ctx.services.isSome) ∧
  (∀ mods svcs, ctx.modules = some mods → ctx.services = some svcs →
    ∀ e, e ∈ svcs → ∃ k, lookupStr mods k = some e.2.module)

/-- The first segment of a selector string (JS `selector.split(".")[0]`). -/
def selectorName (selector : String) : String :=
  (jsSplit '.' selector).headD ""

/-- The namespace a selector denotes: the remaining segments joined by `.`,
or the default namespace when that join is the empty string. -/
def selectorNamespace (selector : String) : String :=
  let joined := jsJoin '.' ((jsSplit '.' selector).drop 1)
  if joined == "" then DEFAULT_NAMESPACE else joined

/-- A one-environment project configuration for the `setEnvironment`
counterexample. -/
def c4Config : ProjectConfig := ⟨[("prod", ⟨[]⟩)]⟩

/-! ### Concrete data for evaluating the theorems on small inputs -/

/-- Identifier validity used in concrete evaluations: nonempty name. -/
def wValid : String → Bool := fun s => !(s == "")

/-- An environment block whose single provider slot selects plugin `p2`. -/
def wEnvCfg : EnvironmentConfig := ⟨[("slot", ⟨"p2"⟩)]⟩

/-- A project configuration with two environments. -/
def wConfig : ProjectConfig := ⟨[("prod", wEnvCfg), ("dev", ⟨[("slot", ⟨"p1"⟩)]⟩)]⟩

/-- Sample plugins with `Nat` handler values. -/
def wp1 : PluginInterface Nat := ⟨"p1", ["container"], some 1, none, some 11⟩

def wp2 : PluginInterface Nat := ⟨"p2", ["generic"], some 2, some 12, none⟩

def wp3 : PluginInterface Nat := ⟨"p3", ["container"], none, none, some 13⟩

/-- Extract the success value of an `Except`, with a fallback. -/
def exceptOk (dflt : A) : Except E A → A
  | .ok a => a
  | .error _ => dflt

/-- The context obtained by registering `wp1, wp2` as built-ins and `wp3`
externally over `wConfig`. -/
def wCtx : GardenContext Nat :=
  exceptOk (emptyContext wConfig) (mkContext wValid wConfig [wp1, wp2] [wp3])

/-- The context with plugin `wp1` already registered, for the C6 witness. -/
def c6Base : GardenContext Nat :=
  exceptOk (emptyContext wConfig) (registerAll wValid (emptyContext wConfig) [wp1])

/-- A plugin redeclaring the identifier `p1`. -/
def wp1dup : PluginInterface Nat := ⟨"p1", ["generic"], some 9, none, none⟩

/-- A plugin with an empty (invalid) identifier. -/
def wpBad : PluginInterface Nat := ⟨"", [], some 5, none, none⟩

/-- The C6 witness contexts after registering `wp2`, then `wp3`. -/
def c6Ctx1 : GardenContext Nat := exceptOk c6Base (registerPlugin wValid c6Base wp2)

def c6Ctx2 : GardenContext Nat := exceptOk c6Base (registerPlugin wValid c6Ctx1 wp3)

/-- The optional module-type restriction applied by `getAllPlugins`: when a
module type is supplied, keep the plugins whose supported-module-type set
contains it. -/
def restrictByType (ps : List (PluginInterface H)) : Option String → List (PluginInterface H)
  | some mt => ps.filter (fun p => p.supportedModuleTypes.contains mt)
  | none => ps

/-- The environment-related states reachable by `setEnvironment` calls over
a fixed project configuration: either unset, or set to a name that the
configuration contains (with a namespace stored alongside). -/
def goodEnvState (config : ProjectConfig) (ctx : GardenContext H) : Prop :=
  ctx.config = config ∧
  (ctx.environment = none ∨
   (∃ n, ctx.environment = some n ∧ ctx.namespace_.isSome = true ∧
      (lookupStr config.environments n).isSome = true))

/-- The context of the C2 witness: `wCtx` with environment `prod` active. -/
def c2Ctx : GardenContext Nat :=
  (exceptOk (wCtx, (⟨"", ""⟩ : EnvPair)) (setEnvironment wCtx "prod")).1

/-- A generic-module plugin for discovery evaluations. -/
def wpGen : PluginInterface Nat := ⟨"generic", ["generic"], some 7, none, none⟩

/-- A parse handler application for evaluations: builds the module from the
declared name and type, at path `a`. -/
def apW : Nat → ModuleConfig → Module := fun _ cfg => ⟨cfg.name, cfg.type, "a"⟩

/-- A module-config loader for evaluations: one module with one service. -/
def lcW : String → ModuleConfig := fun _ => ⟨"mod-a", "generic", some [("svc-a", "raw")]⟩

/-- The operation sequence of the C10 witness: register the generic plugin,
then run a discovery pass over one module declaration. -/
def c10Ops : List (Op Nat) :=
  [.register wValid wpGen, .scanModules apW lcW "root" [⟨"root/a/garden.yml"⟩] none]

/-- The context reached by the C10 witness operations. -/
def c10Ctx : GardenContext Nat := runOps (emptyContext wConfig) c10Ops

/-- The context of the C8 witness before the first discovery pass. -/
def c8Ctx0 : GardenContext Nat := runOps (emptyContext wConfig) [.register wValid wpGen]

/-- The context of the C8 witness after the first discovery pass. -/
def c8Ctx1 : GardenContext Nat :=
  (exceptOk ([], c8Ctx0) (getModules apW lcW "root" [⟨"root/a/garden.yml"⟩] c8Ctx0 none)).2

/-- A loader that redeclares the already-indexed module name `mod-a`. -/
def lcDup : String → ModuleConfig := fun _ => ⟨"mod-a", "generic", none⟩

/-- A parse handler application for the duplicate-declaration evaluation. -/
def apDup : Nat → ModuleConfig → Module := fun _ cfg => ⟨cfg.name, cfg.type, "b"⟩

/-! ### Helper lemmas -/

theorem lookupStr_append (l₁ l₂ : List (String × A)) (k : String) :
    lookupStr (l₁ ++ l₂) k = (lookupStr l₁ k).or (lookupStr l₂ k) := by
  unfold lookupStr
  rw [List.find?_append]
  cases l₁.find? (fun kv => kv.1 == k) <;> simp

theorem lookupStr_mem {l : List (String × A)} {k : String} {v : A}
    (h : lookupStr l k = some v) : (k, v) ∈ l := by
  unfold lookupStr at h
  cases hf : l.find? (fun kv => kv.1 == k) with
  | none => rw [hf] at h; simp at h
  | some kv =>
      rw [hf] at h
      simp only [Option.map_some', Option.some.injEq] at h
      have hp := List.find?_some hf
      have hm := List.mem_of_find?_eq_some hf
      rcases kv with ⟨k', v'⟩
      simp only [beq_iff_eq] at hp
      subst hp
      subst h
      exact hm

theorem lookupStr_eq_none {l : List (String × A)} {k : String} :
    lookupStr l k = none ↔ ∀ kv ∈ l, kv.1 ≠ k := by
  unfold lookupStr
  simp [List.find?_eq_none]

theorem lookupStr_singleton_ne {k k' : String} {v : A} (h : k ≠ k') :
    lookupStr [(k, v)] k' = none := by
  simp [lookupStr, h]

theorem lookupStr_singleton_eq {k : String} {v : A} :
    lookupStr [(k, v)] k = some v := by
  simp [lookupStr]

theorem registerHandlers_get (m : PluginActionMap H) (p : PluginInterface H)
    (a : ActionType) :
    (registerHandlers m p).get a =
      m.get a ++
        (match p.action a with
         | some h => [(p.name, h)]
         | none => []) := by
  rcases m with ⟨mp, ms, mb⟩
  rcases p with ⟨nm, ts, pm, st, bm⟩
  cases a <;> cases pm <;> cases st <;> cases bm <;>
    simp [registerHandlers, pluginActionNames, PluginInterface.action,
      addHandlerEntry, PluginActionMap.get]

theorem registerPlugin_ok {v : String → Bool} {ctx ctx' : GardenContext H}
    {p : PluginInterface H} (h : registerPlugin v ctx p = .ok ctx') :
    v p.name = true ∧ findPlugin ctx.plugins p.name = none ∧
    ctx' = { ctx with
      plugins := ctx.plugins ++ [p]
      actionHandlers := registerHandlers ctx.actionHandlers p } := by
  unfold registerPlugin at h
  split at h
  · exact absurd h (by simp)
  · rename_i hv
    split at h
    · exact absurd h (by simp)
    · rename_i hfind
      refine ⟨by simpa using hv, hfind, (Except.ok.inj h).symm⟩

theorem findPlugin_none {ps : List (PluginInterface H)} {nm : String}
    (h : findPlugin ps nm = none) : ∀ p ∈ ps, p.name ≠ nm := by
  intro p hp
  have := List.find?_eq_none.mp h p hp
  simpa using this

theorem registerPlugin_consistent {v : String → Bool} {ctx ctx' : GardenContext H}
    {pl : PluginInterface H} (h : registerPlugin v ctx pl = .ok ctx')
    (hc : handlersConsistent ctx) : handlersConsistent ctx' := by
  obtain ⟨hv, hfind, rfl⟩ := registerPlugin_ok h
  obtain ⟨h1, h2⟩ := hc
  have hfresh : ∀ q ∈ ctx.plugins, q.name ≠ pl.name := findPlugin_none hfind
  have hkey : ∀ a : ActionType, lookupStr (ctx.actionHandlers.get a) pl.name = none := by
    intro a
    cases hl : lookupStr (ctx.actionHandlers.get a) pl.name with
    | none => rfl
    | some w =>
        obtain ⟨q, hq, hqname⟩ := h2 a pl.name w (lookupStr_mem hl)
        exact absurd hqname (hfresh q hq)
  constructor
  · intro q hq a
    have hq' : q ∈ ctx.plugins ++ [pl] := hq
    show lookupStr ((registerHandlers ctx.actionHandlers pl).get a) q.name = q.action a
    rw [registerHandlers_get, lookupStr_append]
    rcases List.mem_append.mp hq' with hql | hqr
    · rw [h1 q hql a]
      cases hqa : q.action a with
      | some w => rfl
      | none =>
          simp only [Option.none_or]
          cases hpa : pl.action a with
          | none => rfl
          | some w => exact lookupStr_singleton_ne (Ne.symm (hfresh q hql))
    · have hqp : q = pl := by simpa using hqr
      subst hqp
      rw [hkey a]
      simp only [Option.none_or]
      cases hpa : q.action a with
      | none => simp [lookupStr]
      | some w => exact lookupStr_singleton_eq
  · intro a nm hh hmem
    have hmem' : (nm, hh) ∈ (registerHandlers ctx.actionHandlers pl).get a := hmem
    rw [registerHandlers_get] at hmem'
    rcases List.mem_append.mp hmem' with hml | hmr
    · obtain ⟨q, hq, hqn⟩ := h2 a nm hh hml
      exact ⟨q, List.mem_append.mpr (Or.inl hq), hqn⟩
    · refine ⟨pl, List.mem_append.mpr (Or.inr (by simp)), ?_⟩
      cases hpa : pl.action a with
      | none => rw [hpa] at hmr; simp at hmr
      | some w =>
          rw [hpa] at hmr
          simp only [List.mem_singleton, Prod.mk.injEq] at hmr
          exact hmr.1.symm

theorem emptyContext_consistent (config : ProjectConfig) :
    handlersConsistent (emptyContext config : GardenContext H) := by
  constructor
  · intro p hp
    simp [emptyContext] at hp
  · intro a nm h hmem
    cases a <;> simp [emptyContext, PluginActionMap.get] at hmem

theorem registerAll_ok {v : String → Bool} {ps : List (PluginInterface H)}
    {ctx ctx' : GardenContext H} (h : registerAll v ctx ps = .ok ctx') :
    ctx'.plugins = ctx.plugins ++ ps ∧ ctx'.config = ctx.config ∧
    ctx'.environment = ctx.environment ∧ ctx'.namespace_ = ctx.namespace_ ∧
    ctx'.modules = ctx.modules ∧ ctx'.services = ctx.services ∧
    (handlersConsistent ctx → handlersConsistent ctx') := by
  induction ps generalizing ctx with
  | nil =>
      unfold registerAll at h
      obtain rfl := Except.ok.inj h
      simp
  | cons p ps ih =>
      unfold registerAll at h
      cases hr : registerPlugin v ctx p with
      | error e => rw [hr] at h; exact absurd h (by simp)
      | ok ctxm =>
          rw [hr] at h
          obtain ⟨hp, hcfg, henv, hns, hmod, hsvc, hcons⟩ := ih h
          obtain ⟨hv, hf, rfl⟩ := registerPlugin_ok hr
          refine ⟨?_, hcfg, henv, hns, hmod, hsvc,
            fun hc => hcons (registerPlugin_consistent hr hc)⟩
          rw [hp]
          simp

theorem mkContext_ok {v : String → Bool} {config : ProjectConfig}
    {builtins externals : List (PluginInterface H)} {ctx : GardenContext H}
    (h : mkContext v config builtins externals = .ok ctx) :
    ctx.plugins = builtins ++ externals ∧ ctx.config = config ∧
    ctx.environment = none ∧ ctx.namespace_ = none ∧
    handlersConsistent ctx := by
  obtain ⟨hp, hcfg, henv, hns, _, _, hcons⟩ := registerAll_ok h
  refine ⟨by simpa [emptyContext] using hp, hcfg, henv, hns,
    hcons (emptyContext_consistent config)⟩

/-- The first-match scan: whenever the scanned list is drawn from the
registered plugins of a consistent context, the handler-map lookup for the
found plugin returns exactly that plugin's handler. -/
theorem find_lookup_of_consistent {ctx : GardenContext H}
    (hc : handlersConsistent ctx) {l : List (PluginInterface H)}
    (hsub : ∀ q ∈ l, q ∈ ctx.plugins) {a : ActionType} {p : PluginInterface H}
    (hfind : l.find? (fun q => (q.action a).isSome) = some p) :
    lookupStr (ctx.actionHandlers.get a) p.name = p.action a :=
  hc.1 p (hsub p (List.mem_of_find?_eq_some hfind)) a

theorem setEnvironment_ok {ctx ctx' : GardenContext H} {s : String} {pr : EnvPair}
    (h : setEnvironment ctx s = .ok (ctx', pr)) :
    pr.name = (jsSplit '.' s).headD "" ∧
    (lookupStr ctx.config.environments pr.name).isSome = true ∧
    ctx' = { ctx with environment := some pr.name, namespace_ := some pr.namespace_ } := by
  unfold setEnvironment at h
  simp only [] at h
  split at h
  · exact absurd h (by simp)
  · rename_i cfg heq
    obtain ⟨h1, h2⟩ := Prod.mk.injEq .. ▸ Except.ok.inj h
    subst h1
    subst h2
    exact ⟨rfl, by rw [heq]; rfl, rfl⟩

theorem setEnvironment_error {ctx : GardenContext H} {s : String} {e : GardenError H}
    (h : setEnvironment ctx s = .error e) :
    lookupStr ctx.config.environments ((jsSplit '.' s).headD "") = none := by
  unfold setEnvironment at h
  simp only [] at h
  split at h
  · assumption
  · exact absurd h (by simp)

/-! ### Claim theorems -/

/-- C4 counterexample: on the selector `"prod."` the remainder after the
first segment exists (it is the single empty segment) and joins to the empty
string, yet `setEnvironment` stores and returns the default namespace rather
than that empty join — so the namespace is not "the remaining segments
joined by '.'" and the default is used even though a remainder exists. -/
theorem setEnvironment_trailing_dot_counterexample :
    (jsSplit '.' "prod.").drop 1 = [""] ∧
    jsJoin '.' ((jsSplit '.' "prod.").drop 1) = "" ∧
    DEFAULT_NAMESPACE ≠ "" ∧
    setEnvironment (emptyContext c4Config : GardenContext Nat) "prod." =
      .ok ({ emptyContext c4Config with
              environment := some "prod"
              namespace_ := some DEFAULT_NAMESPACE },
        ⟨"prod", DEFAULT_NAMESPACE⟩) :=
  ⟨by decide, by decide, by decide, by decide⟩

/-- C4 (amended): `setEnvironment` splits the selector on `.`, takes the
first segment as the environment name and the remaining segments joined by
`.` as the namespace, except that the fixed default namespace is used
whenever that joined remainder is the empty string (in particular when no
remainder exists); it fails with a `ParameterError` when the name is not a
key of the project's environments configuration, and otherwise stores the
`(name, namespace)` pair as the single active environment, replacing any
previous value, and returns that pair. -/
theorem setEnvironment_spec {H : Type} (ctx : GardenContext H) (selector : String) :
    (∀ cfg, lookupStr ctx.config.environments (selectorName selector) = some cfg →
      setEnvironment ctx selector =
        .ok ({ ctx with
                environment := some (selectorName selector)
                namespace_ := some (selectorNamespace selector) },
          ⟨selectorName selector, selectorNamespace selector⟩)) ∧
    (lookupStr ctx.config.environments (selectorName selector) = none →
      setEnvironment ctx selector =
        .error (.parameterError ("Could not find environment " ++ selector)
          (.envNotFound (selectorName selector) (selectorNamespace selector)))) := by
  constructor
  · intro cfg hcfg
    unfold setEnvironment
    simp only []
    rw [show (jsSplit '.' selector).headD "" = selectorName selector from rfl, hcfg]
    rfl
  · intro hnone
    unfold setEnvironment
    simp only []
    rw [show (jsSplit '.' selector).headD "" = selectorName selector from rfl, hnone]
    rfl

/-- Witness for C4 (amended): `setEnvironment "prod.teamA"` succeeds with
namespace `teamA`, and `setEnvironment "bogus"` fails, on a concrete
context. -/
theorem setEnvironment_spec_witness :
    setEnvironment (emptyContext wConfig : GardenContext Nat) "prod.teamA" =
      .ok ({ emptyContext wConfig with
              environment := some "prod"
              namespace_ := some "teamA" },
        ⟨"prod", "teamA"⟩) ∧
    setEnvironment (emptyContext wConfig : GardenContext Nat) "bogus" =
      .error (.parameterError ("Could not find environment " ++ "bogus")
        (.envNotFound "bogus" DEFAULT_NAMESPACE)) :=
  ⟨(setEnvironment_spec (emptyContext wConfig) "prod.teamA").1 wEnvCfg (by decide),
   (setEnvironment_spec (emptyContext wConfig) "bogus").2 (by decide)⟩

/-- C7: when no registered plugin (after the optional module-type
restriction) implements the requested capability, `getActionHandler` fails
with a `ParameterError` whose detail carries the requested capability and
the requested module type. -/
theorem getActionHandler_no_handler {H : Type} (ctx : GardenContext H)
    (a : ActionType) (mt : Option String)
    (h : ∀ p ∈ getAllPlugins ctx mt, (p.action a).isSome = false) :
    getActionHandler ctx a mt =
      .error (.parameterError (noHandlerMessage a mt) (.noHandler a mt)) := by
  unfold getActionHandler
  rw [List.find?_eq_none.mpr (fun p hp => by simp [h p hp])]

/-- Witness for C7: a context whose plugins implement no `buildModule`
handler for module type `generic`. -/
theorem getActionHandler_no_handler_witness :
    getActionHandler wCtx .buildModule (some "generic") =
      .error (.parameterError (noHandlerMessage .buildModule (some "generic"))
        (.noHandler .buildModule (some "generic"))) :=
  getActionHandler_no_handler wCtx .buildModule (some "generic") (by decide)

/-- C6: `registerPlugin` fails with a `PluginError` when the plugin's
identifier is invalid, and when a plugin with the same identifier is already
registered; registering two plugins with distinct fresh valid identifiers
succeeds and each one's handlers remain independently retrievable under its
own identifier afterwards. -/
theorem registerPlugin_errors_and_distinct {H : Type} (v : String → Bool)
    (ctx : GardenContext H) (hc : handlersConsistent ctx) :
    (∀ p : PluginInterface H, v p.name = false →
      registerPlugin v ctx p =
        .error (.pluginError ("Invalid plugin name " ++ p.name)
          (.invalidIdentifier p.name))) ∧
    (∀ (p prev : PluginInterface H), v p.name = true →
      findPlugin ctx.plugins p.name = some prev →
      registerPlugin v ctx p =
        .error (.pluginError ("Plugin " ++ p.name ++ " declared more than once")
          (.duplicatePlugin prev p))) ∧
    (∀ p q : PluginInterface H, v p.name = true → v q.name = true →
      p.name ≠ q.name →
      findPlugin ctx.plugins p.name = none → findPlugin ctx.plugins q.name = none →
      (registerPlugin v ctx p).isOk = true ∧
      (∀ ctx₁, registerPlugin v ctx p = .ok ctx₁ →
        (registerPlugin v ctx₁ q).isOk = true ∧
        (∀ ctx₂, registerPlugin v ctx₁ q = .ok ctx₂ →
          (∀ a, lookupStr (ctx₂.actionHandlers.get a) p.name = p.action a) ∧
          (∀ a, lookupStr (ctx₂.actionHandlers.get a) q.name = q.action a)))) := by
  refine ⟨?_, ?_, ?_⟩
  · intro p hv
    simp [registerPlugin, hv]
  · intro p prev hv hfind
    simp [registerPlugin, hv, hfind]
  · intro p q hvp hvq hpq hfp hfq
    refine ⟨by simp [registerPlugin, hvp, hfp, Except.isOk, Except.toBool], ?_⟩
    intro ctx₁ h1
    obtain ⟨_, _, hctx₁⟩ := registerPlugin_ok h1
    have hfq₁ : findPlugin ctx₁.plugins q.name = none := by
      rw [hctx₁]
      show findPlugin (ctx.plugins ++ [p]) q.name = none
      unfold findPlugin
      rw [List.find?_append]
      rw [show List.find? (fun r => r.name == q.name) ctx.plugins = none from hfq]
      have hb : (p.name == q.name) = false := by simp [hpq]
      simp [List.find?, hb]
    refine ⟨by simp [registerPlugin, hvq, hfq₁, Except.isOk, Except.toBool], ?_⟩
    intro ctx₂ h2
    have hc₂ : handlersConsistent ctx₂ :=
      registerPlugin_consistent h2 (registerPlugin_consistent h1 hc)
    obtain ⟨_, _, hctx₂⟩ := registerPlugin_ok h2
    have hpmem : p ∈ ctx₂.plugins := by
      rw [hctx₂]
      show p ∈ ctx₁.plugins ++ [q]
      rw [hctx₁]
      show p ∈ (ctx.plugins ++ [p]) ++ [q]
      simp
    have hqmem : q ∈ ctx₂.plugins := by
      rw [hctx₂]
      show q ∈ ctx₁.plugins ++ [q]
      simp
    exact ⟨fun a => hc₂.1 p hpmem a, fun a => hc₂.1 q hqmem a⟩

/-- Witness for C6: on a concrete context holding `p1`, an invalid
identifier and a duplicate identifier are rejected with `PluginError`s, and
two fresh distinct plugins register successfully with their handlers
independently retrievable. -/
theorem registerPlugin_errors_and_distinct_witness :
    registerPlugin wValid c6Base wpBad =
      .error (.pluginError ("Invalid plugin name " ++ "")
        (.invalidIdentifier "")) ∧
    registerPlugin wValid c6Base wp1dup =
      .error (.pluginError ("Plugin " ++ "p1" ++ " declared more than once")
        (.duplicatePlugin wp1 wp1dup)) ∧
    lookupStr (c6Ctx2.actionHandlers.get .parseModule) "p2" = some 2 ∧
    lookupStr (c6Ctx2.actionHandlers.get .buildModule) "p3" = some 13 := by
  have hreg : registerAll wValid (emptyContext wConfig) [wp1] = .ok c6Base := rfl
  have hcB : handlersConsistent c6Base :=
    (registerAll_ok hreg).2.2.2.2.2.2 (emptyContext_consistent wConfig)
  have T := registerPlugin_errors_and_distinct wValid c6Base hcB
  have T3 := T.2.2 wp2 wp3 (by decide) (by decide) (by decide) (by decide) (by decide)
  have T3b := (T3.2 c6Ctx1 rfl).2 c6Ctx2 rfl
  exact ⟨T.1 wpBad (by decide), T.2.1 wp1dup wp1 (by decide) (by decide),
    T3b.1 .parseModule, T3b.2 .buildModule⟩

theorem applyEnvCalls_good {config : ProjectConfig} :
    ∀ (calls : List String) (ctx : GardenContext H), goodEnvState config ctx →
    goodEnvState config (applyEnvCalls ctx calls) ∧
    (applyEnvCalls ctx calls).environment.isSome =
      (ctx.environment.isSome || calls.any (envCallSucceeds config)) := by
  intro calls
  induction calls with
  | nil =>
      intro ctx hg
      exact ⟨hg, by simp [applyEnvCalls]⟩
  | cons s rest ih =>
      intro ctx hg
      have hstep : applyEnvCalls ctx (s :: rest) =
          applyEnvCalls
            (match setEnvironment ctx s with
             | .ok (c', _) => c'
             | .error _ => ctx) rest := rfl
      cases he : setEnvironment ctx s with
      | error e =>
          rw [hstep, he]
          have hsucc : envCallSucceeds config s = false := by
            unfold envCallSucceeds
            rw [← hg.1, setEnvironment_error he]
            rfl
          obtain ⟨hg', hiff⟩ := ih ctx hg
          exact ⟨hg', by rw [hiff]; simp [hsucc]⟩
      | ok pair =>
          rcases pair with ⟨c', pr⟩
          rw [hstep, he]
          obtain ⟨hprname, hlk, hceq⟩ := setEnvironment_ok he
          have hgood' : goodEnvState config c' := by
            refine ⟨by rw [hceq]; exact hg.1, Or.inr ⟨pr.name, by rw [hceq], by rw [hceq]; rfl, ?_⟩⟩
            rw [← hg.1]
            exact hlk
          obtain ⟨hg', hiff⟩ := ih c' hgood'
          have hsucc : envCallSucceeds config s = true := by
            unfold envCallSucceeds
            rw [← hprname, ← hg.1]
            exact hlk
          refine ⟨hg', ?_⟩
          rw [hiff, hceq]
          simp [hsucc]

/-- C5: `getEnvironment` fails with the environment-not-set `PluginError`
exactly when no `setEnvironment` call has yet succeeded on the context, and
after a successful call it returns the stored name and namespace together
with the environment block looked up from project configuration by that
name.  The hypothesis that configured environment names are nonempty models
the identifier grammar the project-config loader enforces. -/
theorem getEnvironment_set_iff {H : Type} (config : ProjectConfig)
    (hvalid : ∀ kv ∈ config.environments, kv.1 ≠ "") (calls : List String)
    (ctxF : GardenContext H)
    (hrun : ctxF = applyEnvCalls (emptyContext config) calls) :
    (getEnvironment ctxF = .error (.pluginError "Environment has not been set" .empty) ↔
      calls.any (envCallSucceeds config) = false) ∧
    (calls.any (envCallSucceeds config) = true →
      ctxF.environment.isSome = true ∧ ctxF.namespace_.isSome = true ∧
      getEnvironment ctxF =
        .ok { name := ctxF.environment.getD ""
              namespace_ := ctxF.namespace_
              config := lookupStr config.environments (ctxF.environment.getD "") }) := by
  subst hrun
  obtain ⟨⟨hcfg, hdisj⟩, hiff⟩ :=
    @applyEnvCalls_good H config calls (emptyContext config) ⟨rfl, Or.inl rfl⟩
  rw [show (emptyContext config : GardenContext H).environment = none from rfl] at hiff
  simp only [Option.isSome_none, Bool.false_or] at hiff
  cases hany : calls.any (envCallSucceeds config) with
  | false =>
      rw [hany] at hiff
      have henv : (applyEnvCalls (emptyContext config : GardenContext H) calls).environment = none :=
        Option.not_isSome_iff_eq_none.mp (by simp [hiff])
      constructor
      · simp [getEnvironment, jsFalsyStr, henv]
      · intro hh
        simp at hh
  | true =>
      rw [hany] at hiff
      rcases hdisj with henv | ⟨n, hn, hns, hlk⟩
      · rw [henv] at hiff
        simp at hiff
      obtain ⟨cfgv, hv⟩ := Option.isSome_iff_exists.mp hlk
      have hne : n ≠ "" := hvalid (n, cfgv) (lookupStr_mem hv)
      have hge : getEnvironment (applyEnvCalls (emptyContext config : GardenContext H) calls) =
          .ok { name := n
                namespace_ := (applyEnvCalls (emptyContext config : GardenContext H) calls).namespace_
                config := lookupStr config.environments n } := by
        unfold getEnvironment
        rw [hn]
        simp [jsFalsyStr, hne, hcfg]
      constructor
      · rw [hge]
        simp
      · intro _
        refine ⟨by rw [hn]; rfl, hns, ?_⟩
        rw [hge, hn]
        rfl

/-- Witness for C5: after `["bogus"]` (no success) reading the environment
fails; after `["bogus", "prod.teamA"]` it returns the stored pair and the
`prod` configuration block. -/
theorem getEnvironment_set_iff_witness :
    getEnvironment (applyEnvCalls (emptyContext wConfig : GardenContext Nat) ["bogus"]) =
      .error (.pluginError "Environment has not been set" .empty) ∧
    getEnvironment (applyEnvCalls (emptyContext wConfig : GardenContext Nat)
        ["bogus", "prod.teamA"]) =
      .ok { name := "prod", namespace_ := some "teamA", config := some wEnvCfg } := by
  refine ⟨?_, ?_⟩
  · exact (getEnvironment_set_iff wConfig (by decide) ["bogus"] _ rfl).1.mpr (by decide)
  · exact ((getEnvironment_set_iff wConfig (by decide) ["bogus", "prod.teamA"] _ rfl).2
      (by decide)).2.2

/-- C1: for a context built by registering the built-in plugins first, in
their fixed order, and then the externally supplied plugins,
`getActionHandler` returns the bound handler of the first plugin in
registration order that implements the capability, where the scanned list is
restricted, when a module type is supplied, to plugins whose supported
module types contain it. -/
theorem getActionHandler_first_in_order {H : Type} (v : String → Bool)
    (config : ProjectConfig) (builtins externals : List (PluginInterface H))
    (ctx : GardenContext H) (hmk : mkContext v config builtins externals = .ok ctx)
    (a : ActionType) (mt : Option String) (p : PluginInterface H)
    (hfirst : (restrictByType (builtins ++ externals) mt).find?
      (fun q => (q.action a).isSome) = some p) :
    getActionHandler ctx a mt = .ok (p.action a) := by
  obtain ⟨hp, _, _, _, hc⟩ := mkContext_ok hmk
  have hall : getAllPlugins ctx mt = restrictByType (builtins ++ externals) mt := by
    cases mt <;> simp [getAllPlugins, restrictByType, hp]
  have hsub : ∀ q ∈ getAllPlugins ctx mt, q ∈ ctx.plugins := by
    cases mt with
    | none => exact fun q hq => hq
    | some m => exact fun q hq => List.mem_of_mem_filter hq
  have hfind : (getAllPlugins ctx mt).find? (fun q => (q.action a).isSome) = some p := by
    rw [hall]
    exact hfirst
  unfold getActionHandler
  rw [hfind]
  show Except.ok (lookupStr (ctx.actionHandlers.get a) p.name) = .ok (p.action a)
  rw [find_lookup_of_consistent hc hsub hfind]

/-- Witness for C1: on `wCtx` (built-ins `p1, p2`, external `p3`), among the
plugins supporting module type `container` the first one implementing
`buildModule` is `p1`, and resolution returns its bound handler. -/
theorem getActionHandler_first_in_order_witness :
    getActionHandler wCtx .buildModule (some "container") = .ok (some 11) :=
  getActionHandler_first_in_order wValid wConfig [wp1, wp2] [wp3] wCtx rfl
    .buildModule (some "container") wp1 (by decide)

/-- C2: with an active environment, environment-scoped resolution considers
exactly the plugins (after the optional module-type restriction) whose
identifier is among the provider types configured for the active environment
(the values of its provider-slot mapping), in registration order, and
returns the bound handler of the first of them implementing the capability;
that plugin's identifier is always inside the provider-type set. -/
theorem getEnvActionHandler_scoped {H : Type} (v : String → Bool)
    (config : ProjectConfig) (builtins externals : List (PluginInterface H))
    (ctx₀ : GardenContext H) (hmk : mkContext v config builtins externals = .ok ctx₀)
    (sel : String) (ctx : GardenContext H) (pr : EnvPair)
    (hset : setEnvironment ctx₀ sel = .ok (ctx, pr)) (hne : pr.name ≠ "")
    (envCfg : EnvironmentConfig)
    (hcfg : lookupStr config.environments pr.name = some envCfg)
    (a : ActionType) (mt : Option String) :
    getEnvPlugins ctx mt =
      .ok ((getAllPlugins ctx mt).filter
        (fun p => (envCfg.providers.map (fun kv => kv.2.type)).contains p.name)) ∧
    (∀ p, ((getAllPlugins ctx mt).filter
          (fun p => (envCfg.providers.map (fun kv => kv.2.type)).contains p.name)).find?
        (fun q => (q.action a).isSome) = some p →
      getEnvActionHandler ctx a mt = .ok (p.action a) ∧
      (envCfg.providers.map (fun kv => kv.2.type)).contains p.name = true) := by
  obtain ⟨hp₀, hcfg₀, _, _, hc₀⟩ := mkContext_ok hmk
  obtain ⟨hprname, hlk, hctx⟩ := setEnvironment_ok hset
  have henv : ctx.environment = some pr.name := by rw [hctx]
  have hconf : ctx.config = config := by rw [hctx]; exact hcfg₀
  have hcc : handlersConsistent ctx := by rw [hctx]; exact hc₀
  have hge : getEnvironment ctx =
      .ok { name := pr.name, namespace_ := ctx.namespace_, config := some envCfg } := by
    unfold getEnvironment
    rw [henv]
    simp [jsFalsyStr, hne, hconf, hcfg]
  have henvp : getEnvPlugins ctx mt =
      .ok ((getAllPlugins ctx mt).filter
        (fun p => (envCfg.providers.map (fun kv => kv.2.type)).contains p.name)) := by
    unfold getEnvPlugins
    rw [hge]
  refine ⟨henvp, ?_⟩
  intro p hfind
  have hmemf := List.mem_of_find?_eq_some hfind
  have hmemall : p ∈ getAllPlugins ctx mt := List.mem_of_mem_filter hmemf
  have hmem : p ∈ ctx.plugins := by
    cases mt with
    | none => exact hmemall
    | some m => exact List.mem_of_mem_filter hmemall
  have hcontains : (envCfg.providers.map (fun kv => kv.2.type)).contains p.name = true :=
    (List.mem_filter.mp hmemf).2
  refine ⟨?_, hcontains⟩
  unfold getEnvActionHandler
  rw [henvp]
  show (match ((getAllPlugins ctx mt).filter
      (fun p => (envCfg.providers.map (fun kv => kv.2.type)).contains p.name)).find?
        (fun q => (q.action a).isSome) with
    | some plugin => Except.ok (lookupStr (ctx.actionHandlers.get a) plugin.name)
    | none =>
        match getEnvironment ctx with
        | .error e => Except.error e
        | .ok env =>
            Except.error (.parameterError (noEnvHandlerMessage a mt env.name)
              (.noEnvHandler a mt env.name))) = Except.ok (p.action a)
  rw [hfind]
  show Except.ok (lookupStr (ctx.actionHandlers.get a) p.name) = .ok (p.action a)
  rw [hcc.1 p hmem a]

/-- Witness for C2: with environment `prod` active (provider type `p2`),
`parseModule` resolves to plugin `p2`, which is inside the provider-type
set. -/
theorem getEnvActionHandler_scoped_witness :
    getEnvActionHandler c2Ctx .parseModule none = .ok (some 2) ∧
    (wEnvCfg.providers.map (fun kv => kv.2.type)).contains "p2" = true := by
  have T := getEnvActionHandler_scoped wValid wConfig [wp1, wp2] [wp3] wCtx rfl
    "prod" c2Ctx ⟨"prod", "default"⟩ rfl (by decide) wEnvCfg (by decide)
    .parseModule none
  have T2 := T.2 wp2 (by decide)
  exact ⟨T2.1, T2.2⟩


theorem getModules_ok_fields {ap : H → ModuleConfig → Module}
    {lc : String → ModuleConfig} {root : String} {items : List ScanItem}
    {ctx : GardenContext H} {names : Option (List String)}
    {res : List (String × Module)} {ctx' : GardenContext H}
    (h : getModules ap lc root items ctx names = .ok (res, ctx')) :
    ctx'.config = ctx.config ∧ ctx'.environment = ctx.environment ∧
    ctx'.namespace_ = ctx.namespace_ ∧ ctx'.plugins = ctx.plugins ∧
    ctx'.actionHandlers = ctx.actionHandlers := by
  unfold getModules at h
  split at h
  · obtain ⟨h1, h2⟩ := Prod.mk.injEq .. ▸ Except.ok.inj h
    subst h2
    exact ⟨rfl, rfl, rfl, rfl, rfl⟩
  · split at h
    · exact absurd h (by simp)
    · obtain ⟨h1, h2⟩ := Prod.mk.injEq .. ▸ Except.ok.inj h
      subst h2
      exact ⟨rfl, rfl, rfl, rfl, rfl⟩

theorem runOp_consistent {ctx : GardenContext H} (hc : handlersConsistent ctx)
    (op : Op H) : handlersConsistent (runOp ctx op) := by
  cases op with
  | register v p =>
      show handlersConsistent (match registerPlugin v ctx p with
        | .ok ctx' => ctx'
        | .error _ => ctx)
      cases hr : registerPlugin v ctx p with
      | ok c' => exact registerPlugin_consistent hr hc
      | error e => exact hc
  | setEnv s =>
      show handlersConsistent (match setEnvironment ctx s with
        | .ok (ctx', _) => ctx'
        | .error _ => ctx)
      cases hr : setEnvironment ctx s with
      | ok pair =>
          rcases pair with ⟨c', pr⟩
          obtain ⟨_, _, hceq⟩ := setEnvironment_ok hr
          show handlersConsistent c'
          rw [hceq]
          exact hc
      | error e => exact hc
  | scanModules ap lc root items names =>
      show handlersConsistent (match getModules ap lc root items ctx names with
        | .ok (_, ctx') => ctx'
        | .error _ => ctx)
      cases hr : getModules ap lc root items ctx names with
      | ok pair =>
          rcases pair with ⟨res, c'⟩
          obtain ⟨_, _, _, hpl, hah⟩ := getModules_ok_fields hr
          show handlersConsistent c'
          unfold handlersConsistent
          rw [hpl, hah]
          exact hc
      | error e => exact hc

theorem runOps_consistent (config : ProjectConfig) (ops : List (Op H)) :
    handlersConsistent (runOps (emptyContext config) ops) := by
  have main : ∀ (l : List (Op H)) (ctx : GardenContext H), handlersConsistent ctx →
      handlersConsistent (runOps ctx l) := by
    intro l
    induction l with
    | nil => exact fun ctx hc => hc
    | cons op rest ih => exact fun ctx hc => ih (runOp ctx op) (runOp_consistent hc op)
  exact main ops (emptyContext config) (emptyContext_consistent config)

/-- C9: after any sequence of operations from a fresh context, the
capability-handler mapping for a capability contains an entry under an
identifier exactly when a registered plugin with that identifier implements
the capability — the invariant is established at registration and preserved
by every operation. -/
theorem actionHandlers_iff_implements {H : Type} (config : ProjectConfig)
    (ops : List (Op H)) (a : ActionType) (nm : String) :
    (lookupStr ((runOps (emptyContext config) ops).actionHandlers.get a) nm).isSome = true ↔
    ∃ p, p ∈ (runOps (emptyContext config) ops).plugins ∧ p.name = nm ∧
      (p.action a).isSome = true := by
  obtain ⟨h1, h2⟩ := runOps_consistent config ops
  constructor
  · intro hs
    obtain ⟨hh, hl⟩ := Option.isSome_iff_exists.mp hs
    obtain ⟨p, hp, hpn⟩ := h2 a nm hh (lookupStr_mem hl)
    refine ⟨p, hp, hpn, ?_⟩
    have hpa := h1 p hp a
    rw [hpn] at hpa
    rw [← hpa, hl]
    rfl
  · rintro ⟨p, hp, rfl, hs⟩
    rw [h1 p hp a]
    exact hs

theorem addServices_sub {H : Type} {owner : String} {module : Module} :
    ∀ {l : List (String × String)} {svcs svcs' : List (String × Service)},
    addServices owner module l svcs =
      (Except.ok svcs' : Except (GardenError H) (List (String × Service))) →
    ∀ e ∈ svcs', e ∈ svcs ∨ e.2.module = module := by
  intro l
  induction l with
  | nil =>
      intro svcs svcs' h e he
      unfold addServices at h
      obtain rfl := Except.ok.inj h
      exact Or.inl he
  | cons sv rest ih =>
      intro svcs svcs' h e he
      rcases sv with ⟨sname, scfg⟩
      unfold addServices at h
      split at h
      · exact absurd h (by simp)
      · rcases ih h e he with hin | hmod
        · rcases List.mem_append.mp hin with hl | hr
          · exact Or.inl hl
          · right
            have heq : e = (sname, ⟨module, scfg⟩) := by simpa using hr
            rw [heq]
        · exact Or.inr hmod

theorem scanStep_indexes {H : Type} {ap : H → ModuleConfig → Module}
    {lc : String → ModuleConfig} {root : String} {ctx : GardenContext H}
    {mods : List (String × Module)} {svcs : List (String × Service)}
    {mods' : List (String × Module)} {svcs' : List (String × Service)}
    {item : ScanItem}
    (h : scanStep ap lc root ctx (mods, svcs) item = .ok (mods', svcs'))
    (hinv : ∀ e ∈ svcs, ∃ k, lookupStr mods k = some e.2.module) :
    ∀ e ∈ svcs', ∃ k, lookupStr mods' k = some e.2.module := by
  unfold scanStep at h
  simp only [] at h
  split at h
  · split at h
    · exact absurd h (by simp)
    · rename_i hnew
      split at h
      · exact absurd h (by simp)
      · exact absurd h (by simp)
      · rename_i hdl hhandler
        split at h
        · exact absurd h (by simp)
        · rename_i svcs2 hadd
          obtain ⟨h1, h2⟩ := Prod.mk.injEq .. ▸ Except.ok.inj h
          subst h1
          subst h2
          intro e he
          rcases addServices_sub hadd e he with hin | hmod
          · obtain ⟨k, hk⟩ := hinv e hin
            refine ⟨k, ?_⟩
            rw [lookupStr_append, hk]
            rfl
          · refine ⟨(lc (pathParse item.path).dir).name, ?_⟩
            rw [lookupStr_append, hnew, hmod]
            exact lookupStr_singleton_eq
  · obtain ⟨h1, h2⟩ := Prod.mk.injEq .. ▸ Except.ok.inj h
    subst h1
    subst h2
    exact hinv

theorem scanAll_indexes {H : Type} {ap : H → ModuleConfig → Module}
    {lc : String → ModuleConfig} {root : String} {ctx : GardenContext H} :
    ∀ {items : List ScanItem}
      {st : List (String × Module) × List (String × Service)}
      {mods' : List (String × Module)} {svcs' : List (String × Service)},
    items.foldlM (scanStep ap lc root ctx) st = .ok (mods', svcs') →
    (∀ e ∈ st.2, ∃ k, lookupStr st.1 k = some e.2.module) →
    ∀ e ∈ svcs', ∃ k, lookupStr mods' k = some e.2.module := by
  intro items
  induction items with
  | nil =>
      intro st mods' svcs' h hinv
      have h' : (Except.ok st : Except (GardenError H) _) = .ok (mods', svcs') := h
      obtain rfl := Except.ok.inj h'
      exact hinv
  | cons it rest ih =>
      intro st mods' svcs' h hinv
      rw [List.foldlM_cons] at h
      cases hs : scanStep ap lc root ctx st it with
      | error e =>
          rw [hs] at h
          have h2 : (Except.error e : Except (GardenError H) (List (String × Module) × List (String × Service))) = .ok (mods', svcs') := h
          cases h2
      | ok st1 =>
          rw [hs] at h
          have h' : rest.foldlM (scanStep ap lc root ctx) st1 = .ok (mods', svcs') := h
          rcases st1 with ⟨m1, s1⟩
          rcases st with ⟨m0, s0⟩
          exact ih h' (scanStep_indexes hs hinv)

theorem runOp_indexes {ctx : GardenContext H} (hc : indexesConsistent ctx)
    (op : Op H) : indexesConsistent (runOp ctx op) := by
  cases op with
  | register v p =>
      show indexesConsistent (match registerPlugin v ctx p with
        | .ok ctx' => ctx'
        | .error _ => ctx)
      cases hr : registerPlugin v ctx p with
      | ok c' =>
          obtain ⟨_, _, hceq⟩ := registerPlugin_ok hr
          show indexesConsistent c'
          rw [hceq]
          exact hc
      | error e => exact hc
  | setEnv s =>
      show indexesConsistent (match setEnvironment ctx s with
        | .ok (ctx', _) => ctx'
        | .error _ => ctx)
      cases hr : setEnvironment ctx s with
      | ok pair =>
          rcases pair with ⟨c', pr⟩
          obtain ⟨_, _, hceq⟩ := setEnvironment_ok hr
          show indexesConsistent c'
          rw [hceq]
          exact hc
      | error e => exact hc
  | scanModules ap lc root items names =>
      show indexesConsistent (match getModules ap lc root items ctx names with
        | .ok (_, ctx') => ctx'
        | .error _ => ctx)
      cases hr : getModules ap lc root items ctx names with
      | error e => exact hc
      | ok pair =>
          rcases pair with ⟨res, c'⟩
          show indexesConsistent c'
          unfold getModules at hr
          split at hr
          · obtain ⟨h1, h2⟩ := Prod.mk.injEq .. ▸ Except.ok.inj hr
            subst h2
            exact hc
          · split at hr
            · exact absurd hr (by simp)
            · rename_i mods svcs heq
              obtain ⟨h1, h2⟩ := Prod.mk.injEq .. ▸ Except.ok.inj hr
              subst h2
              constructor
              · rfl
              · intro mods0 svcs0 hm hs e he
                have hm' : some mods = some mods0 := hm
                have hs' : some svcs = some svcs0 := hs
                obtain rfl := Option.some.inj hm'
                obtain rfl := Option.some.inj hs'
                have heq' : items.foldlM (scanStep ap lc root ctx) ([], []) =
                    .ok (mods, svcs) := heq
                exact scanAll_indexes heq' (by simp) e he

theorem runOps_indexes (config : ProjectConfig) (ops : List (Op H)) :
    indexesConsistent (runOps (emptyContext config) ops) := by
  have main : ∀ (l : List (Op H)) (ctx : GardenContext H), indexesConsistent ctx →
      indexesConsistent (runOps ctx l) := by
    intro l
    induction l with
    | nil => exact fun ctx hc => hc
    | cons op rest ih => exact fun ctx hc => ih (runOp ctx op) (runOp_indexes hc op)
  refine main ops (emptyContext config) ⟨rfl, ?_⟩
  intro mods svcs hm hs
  exact absurd hm (by simp [emptyContext])

/-- C10: in every reachable context, the module and service indexes are
populated together (the service index is never populated without the module
index), and every service stored in the service index has its owning module
present in the module index. -/
theorem service_index_modules {H : Type} (config : ProjectConfig) (ops : List (Op H)) :
    ((runOps (emptyContext config) ops).modules.isSome =
      (runOps (emptyContext config) ops).services.isSome) ∧
    (∀ mods svcs, (runOps (emptyContext config) ops).modules = some mods →
      (runOps (emptyContext config) ops).services = some svcs →
      svcs.all (fun e => (mods.map Prod.snd).contains e.2.module) = true) := by
  obtain ⟨h1, h2⟩ := runOps_indexes config ops
  refine ⟨h1, ?_⟩
  intro mods svcs hm hs
  rw [List.all_eq_true]
  intro e he
  obtain ⟨k, hk⟩ := h2 mods svcs hm hs e he
  simp only [List.contains_iff_exists_mem_beq]
  refine ⟨e.2.module, ?_, by simp⟩
  exact List.mem_map_of_mem Prod.snd (lookupStr_mem hk)

/-- Witness for C10: after registering the generic plugin and one discovery
pass, both indexes are populated and the single service's owning module is
in the module index. -/
theorem service_index_modules_witness :
    c10Ctx.modules.isSome = c10Ctx.services.isSome ∧
    ([("svc-a", (⟨⟨"mod-a", "generic", "a"⟩, "raw"⟩ : Service))].all
      (fun e => (([("mod-a", (⟨"mod-a", "generic", "a"⟩ : Module))]).map Prod.snd).contains
        e.2.module)) = true := by
  have T := service_index_modules wConfig c10Ops
  exact ⟨T.1, T.2 _ _ rfl rfl⟩

/-- C8: once a call to `getModules` has succeeded, the module index is
cached: any later call — with any parse handler, loader, root or scanner
output, so no further scanning is observable — returns the cached index (or
the requested subset) and leaves the context unchanged. -/
theorem getModules_memoized {H : Type} (ap : H → ModuleConfig → Module)
    (lc : String → ModuleConfig) (root : String) (items : List ScanItem)
    (ctx : GardenContext H) (res : List (String × Module)) (ctx' : GardenContext H)
    (h : getModules ap lc root items ctx none = .ok (res, ctx')) :
    ∀ (ap' : H → ModuleConfig → Module) (lc' : String → ModuleConfig)
      (root' : String) (items' : List ScanItem) (names' : Option (List String)),
      getModules ap' lc' root' items' ctx' names' = .ok (pickOpt res names', ctx') := by
  have hm : ctx'.modules = some res := by
    unfold getModules at h
    split at h
    · rename_i mods hmods
      obtain ⟨h1, h2⟩ := Prod.mk.injEq .. ▸ Except.ok.inj h
      subst h2
      rw [hmods]
      exact congrArg some h1
    · split at h
      · exact absurd h (by simp)
      · rename_i mods svcs heq
        obtain ⟨h1, h2⟩ := Prod.mk.injEq .. ▸ Except.ok.inj h
        subst h2
        show some mods = some res
        exact congrArg some h1
  intro ap' lc' root' items' names'
  unfold getModules
  rw [hm]

/-- Witness for C8: after one successful pass, a second call with a
different loader, root and (empty) scanner output returns the identical
cached index and context. -/
theorem getModules_memoized_witness :
    getModules (fun _ cfg => (⟨"other", cfg.type, "y"⟩ : Module))
      (fun _ => (⟨"z", "generic", none⟩ : ModuleConfig)) "elsewhere"
      ([] : List ScanItem) c8Ctx1 none =
      .ok ([("mod-a", ⟨"mod-a", "generic", "a"⟩)], c8Ctx1) :=
  getModules_memoized apW lcW "root" [⟨"root/a/garden.yml"⟩] c8Ctx0
    [("mod-a", ⟨"mod-a", "generic", "a"⟩)] c8Ctx1 rfl _ _ _ _ none

/-- C3: during a discovery pass, a module declaration whose name is already
indexed fails with a `ConfigurationError` naming the stored module's path
and the new declaration's project-relative path, and a service name already
present in the service index fails with a `ConfigurationError` naming the
stored service's owning module and the declaring module. -/
theorem duplicate_module_and_service_errors {H : Type} (ap : H → ModuleConfig → Module)
    (lc : String → ModuleConfig) (root : String) (ctx : GardenContext H) :
    (∀ (mods : List (String × Module)) (svcs : List (String × Service))
        (item : ScanItem) (prev : Module),
      (pathParse item.path).base = MODULE_CONFIG_FILENAME →
      lookupStr mods (lc (pathParse item.path).dir).name = some prev →
      scanStep ap lc root ctx (mods, svcs) item =
        .error (.configurationError
          ("Module " ++ (lc (pathParse item.path).dir).name ++
            " is declared multiple times (\x27" ++ prev.path ++ "\x27 and \x27" ++
            relativePath root item.path ++ "\x27)")
          (.duplicateModule prev.path (relativePath root item.path)))) ∧
    (∀ (ownerName : String) (module : Module) (serviceName serviceConfig : String)
        (rest : List (String × String)) (svcs : List (String × Service)) (prev : Service),
      lookupStr svcs serviceName = some prev →
      addServices ownerName module ((serviceName, serviceConfig) :: rest) svcs =
        (Except.error (.configurationError
          ("Service names must be unique - " ++ serviceName ++
            " is declared multiple times (in \x27" ++ prev.module.name ++
            "\x27 and \x27" ++ ownerName ++ "\x27)")
          (.duplicateService serviceName prev.module.name ownerName)) :
          Except (GardenError H) (List (String × Service)))) := by
  constructor
  · intro mods svcs item prev hbase hdup
    unfold scanStep
    simp only [hbase, beq_self_eq_true, if_true, hdup]
  · intro ownerName module serviceName serviceConfig rest svcs prev hdup
    unfold addServices
    rw [hdup]

set_option maxHeartbeats 1000000 in
/-- Witness for C3: redeclaring module `mod-a` from `root/b/garden.yml`
fails naming `old/path` and `b/garden.yml`; redeclaring service `svc-a`
fails naming owners `mod-a` and `mod-b`. -/
theorem duplicate_module_and_service_errors_witness :
    scanStep apDup lcDup "root" (emptyContext wConfig : GardenContext Nat)
      ([("mod-a", ⟨"mod-a", "generic", "old/path"⟩)], []) ⟨"root/b/garden.yml"⟩ =
      .error (.configurationError
        ("Module " ++ "mod-a" ++ " is declared multiple times (\x27" ++ "old/path" ++
          "\x27 and \x27" ++ "b/garden.yml" ++ "\x27)")
        (.duplicateModule "old/path" "b/garden.yml")) ∧
    addServices "mod-b" (⟨"mod-b", "generic", "b"⟩ : Module) [("svc-a", "raw2")]
      [("svc-a", (⟨⟨"mod-a", "generic", "a"⟩, "raw"⟩ : Service))] =
      (Except.error (.configurationError
        ("Service names must be unique - " ++ "svc-a" ++
          " is declared multiple times (in \x27" ++ "mod-a" ++ "\x27 and \x27" ++
          "mod-b" ++ "\x27)")
        (.duplicateService "svc-a" "mod-a" "mod-b")) :
        Except (GardenError Nat) (List (String × Service))) := by
  refine ⟨?_, ?_⟩
  · exact (duplicate_module_and_service_errors apDup lcDup "root"
      (emptyContext wConfig)).1 [("mod-a", ⟨"mod-a", "generic", "old/path"⟩)] []
      ⟨"root/b/garden.yml"⟩ ⟨"mod-a", "generic", "old/path"⟩ (by decide) (by decide)
  · exact (duplicate_module_and_service_errors apDup lcDup "root"
      (emptyContext wConfig)).2 "mod-b" ⟨"mod-b", "generic", "b"⟩ "svc-a" "raw2" []
      [("svc-a", ⟨⟨"mod-a", "generic", "a"⟩, "raw"⟩)]
      ⟨⟨"mod-a", "generic", "a"⟩, "raw"⟩ (by decide)

end Garden
